import Mathlib

/-!
Shallow embedding of the redis-go server core: the RESP wire codec, the
command dispatcher and its handlers, the expiring key-value store, and the
binary snapshot (RDB) decoder.  Go strings are modelled as byte lists,
machine integers as Nat (all inputs are bytes below 256), the global
sync.Map as an association list threaded explicitly through the handlers,
and the wall clock as an explicit Nat parameter measured in nanoseconds.
Fallible readers return Except and consume from a byte list; a Seek(-1)
in the source corresponds to resuming from the pre-read list.
-/

/-- Go strings are byte sequences; we model them as lists of byte values. -/
abbrev GoStr := List Nat

/-- Byte sequence of an ASCII string literal. -/
def bytesOf (s : String) : GoStr := s.data.map Char.toNat

/-- The two-byte CRLF line terminator. -/
def crlf : GoStr := [13, 10]

/-- Decimal digit bytes of a natural number, fuel-indexed (fuel n+1 always
suffices since the argument strictly decreases). -/
def natDigitsAux : Nat → Nat → List Nat
  | 0, _ => []
  | fuel + 1, n =>
    if n < 10 then [48 + n]
    else natDigitsAux fuel (n / 10) ++ [48 + n % 10]

/-- Decimal digit bytes of a natural number, as produced by fmt.Sprintf
with the %d verb and by strconv.Itoa for non-negative values. -/
def natDigits (n : Nat) : List Nat := natDigitsAux (n + 1) n

/-- Fold decimal digit bytes into a value; fails on a non-digit byte. -/
def foldDigits : Nat → List Nat → Option Nat
  | a, [] => some a
  | a, d :: ds => if 48 ≤ d ∧ d ≤ 57 then foldDigits (a * 10 + (d - 48)) ds else none

/-- Value of a non-empty run of decimal digit bytes. -/
def digitsNum (ds : List Nat) : Option Nat :=
  match ds with
  | [] => none
  | _ :: _ => foldDigits 0 ds

/-- strconv.Atoi: optional sign, then decimal digits; anything else fails.
Overflow of the 64-bit range is not modelled (all uses are small). -/
def goAtoi (s : GoStr) : Option Int :=
  match s with
  | [] => none
  | c :: ds =>
    if c = 43 then (digitsNum ds).map (fun n => (n : Int))
    else if c = 45 then (digitsNum ds).map (fun n => -(n : Int))
    else (digitsNum (c :: ds)).map (fun n => (n : Int))

/-- parseRESPInteger: Atoi plus a lower-bound check; returns the value as a
count on success. -/
def parseRESPInteger (s : GoStr) (lo : Int) : Option Nat :=
  match goAtoi s with
  | none => none
  | some v => if v < lo then none else some v.toNat

/-- strings.ToUpper restricted to ASCII bytes (command names are ASCII). -/
def goToUpper (s : GoStr) : GoStr :=
  s.map (fun b => if 97 ≤ b ∧ b ≤ 122 then b - 32 else b)

/-- strings.ToLower restricted to ASCII bytes. -/
def goToLower (s : GoStr) : GoStr :=
  s.map (fun b => if 65 ≤ b ∧ b ≤ 90 then b + 32 else b)

/-- One stored entry: value plus optional absolute expiry instant
(none models the zero time.Time, meaning no expiry). -/
structure storedValue where
  value : GoStr
  expiresAt : Option Nat
  deriving DecidableEq

/-- Dynamic type of a value held in the sync.Map: the SET handler stores a
pointer to storedValue, while the snapshot loader stores a plain
storedValue; GET distinguishes the two with a type assertion. -/
inductive StoredAny where
  | ptr (sv : storedValue)
  | plain (sv : storedValue)
  deriving DecidableEq

/-- The global sync.Map, modelled as an association list. -/
abbrev Store := List (GoStr × StoredAny)

/-- sync.Map Load. -/
def storeLoad : Store → GoStr → Option StoredAny
  | [], _ => none
  | (k, v) :: rest, key => if k = key then some v else storeLoad rest key

/-- sync.Map Store: replace an existing binding or append a new one. -/
def storeStore : Store → GoStr → StoredAny → Store
  | [], key, v => [(key, v)]
  | (k, w) :: rest, key, v =>
    if k = key then (key, v) :: rest else (k, w) :: storeStore rest key v

/-- sync.Map Delete. -/
def storeDelete : Store → GoStr → Store
  | [], _ => []
  | (k, w) :: rest, key =>
    if k = key then storeDelete rest key else (k, w) :: storeDelete rest key

/-- sync.Map Range collecting the keys, in list order. -/
def storeKeys (st : Store) : List GoStr := st.map (fun p => p.1)

/-- Bulk-string reply encoding, fmt.Sprintf of the dollar form. -/
def bulkEnc (s : GoStr) : GoStr :=
  [36] ++ natDigits s.length ++ crlf ++ s ++ crlf

/-- The null bulk string reply for missing or expired keys. -/
def nullBulk : GoStr := bytesOf ("$-1\r\n")

/-- pingCommand. -/
def pingCommand (st : Store) (_now : Nat) (_args : List GoStr) : Store × GoStr :=
  (st, bytesOf ("+PONG\r\n"))

/-- echoCommand. -/
def echoCommand (st : Store) (_now : Nat) (args : List GoStr) : Store × GoStr :=
  if args.length = 0 then
    (st, bytesOf ("-ERR wrong number of arguments for ") ++ [39] ++ bytesOf ("echo")
      ++ [39] ++ bytesOf (" command\r\n"))
  else (st, bulkEnc (args.getD 0 []))

/-- parseCommandExpiry: validates the PX option and the millisecond count,
returning the absolute expiry instant or the error reply string. -/
def parseCommandExpiry (now : Nat) (args : List GoStr) : Except GoStr Nat :=
  if args.length ≠ 4 then
    Except.error (bytesOf ("-ERR wrong number of arguments for SET with expiry\r\n"))
  else if goToUpper (args.getD 2 []) ≠ bytesOf ("PX") then
    Except.error (bytesOf ("-ERR unsupported option\r\n"))
  else
    match goAtoi (args.getD 3 []) with
    | none => Except.error (bytesOf ("-ERR invalid expiry time\r\n"))
    | some ms =>
      if ms ≤ 0 then Except.error (bytesOf ("-ERR invalid expiry time\r\n"))
      else Except.ok (now + ms.toNat * 1000000)

/-- setCommand: stores a pointer to a storedValue. -/
def setCommand (st : Store) (now : Nat) (args : List GoStr) : Store × GoStr :=
  if args.length ≠ 2 ∧ args.length ≠ 4 then
    (st, bytesOf ("-ERR wrong number of arguments for ") ++ [39] ++ bytesOf ("SET")
      ++ [39] ++ bytesOf (" command\r\n"))
  else if args.length = 4 then
    match parseCommandExpiry now args with
    | Except.error e => (st, e)
    | Except.ok exp =>
      (storeStore st (args.getD 0 []) (StoredAny.ptr ⟨args.getD 1 [], some exp⟩),
        bytesOf ("+OK\r\n"))
  else
    (storeStore st (args.getD 0 []) (StoredAny.ptr ⟨args.getD 1 [], none⟩),
      bytesOf ("+OK\r\n"))

/-- getCommand: null bulk for a missing key; a non-pointer entry is deleted
and reported as missing; an entry whose deadline is strictly before now is
deleted and reported as missing; otherwise the value is returned. -/
def getCommand (st : Store) (now : Nat) (args : List GoStr) : Store × GoStr :=
  if args.length ≠ 1 then
    (st, bytesOf ("-ERR wrong number of arguments for ") ++ [39] ++ bytesOf ("GET")
      ++ [39] ++ bytesOf (" command\r\n"))
  else
    let key := args.getD 0 []
    match storeLoad st key with
    | none => (st, nullBulk)
    | some (StoredAny.plain _) => (storeDelete st key, nullBulk)
    | some (StoredAny.ptr sv) =>
      match sv.expiresAt with
      | none => (st, bulkEnc sv.value)
      | some exp =>
        if exp < now then (storeDelete st key, nullBulk)
        else (st, bulkEnc sv.value)

/-- Configured snapshot directory (startup default). -/
def configDir : GoStr := bytesOf (".")

/-- Configured snapshot filename (startup default). -/
def configDbFilename : GoStr := bytesOf ("dump.rdb")

/-- configCommand. -/
def configCommand (st : Store) (_now : Nat) (args : List GoStr) : Store × GoStr :=
  let subCommand := goToUpper (args.getD 0 [])
  let parameter := goToLower (args.getD 1 [])
  if subCommand = bytesOf ("GET") then
    if parameter = bytesOf ("dir") then
      (st, bytesOf ("*2\r\n$3\r\ndir\r\n") ++ bulkEnc configDir)
    else if parameter = bytesOf ("dbfilename") then
      (st, bytesOf ("*2\r\n$10\r\ndbfilename\r\n") ++ bulkEnc configDbFilename)
    else (st, bytesOf ("*0\r\n"))
  else (st, bytesOf ("-ERR unknown subcommand\r\n"))

/-- keysCommand: collects every key via Range, then folds the array reply
together by string concatenation, exactly as the source builds resp. -/
def keysCommand (st : Store) (_now : Nat) (args : List GoStr) : Store × GoStr :=
  if args.getD 0 [] ≠ bytesOf ("*") then
    (st, bytesOf ("-ERR pattern not supported\r\n"))
  else
    let keys := storeKeys st
    (st, keys.foldl (fun resp key => resp ++ bulkEnc key)
      ([42] ++ natDigits keys.length ++ crlf))

/-- One registry row: arity bounds plus the handler. -/
structure CmdEntry where
  minArgs : Nat
  maxArgs : Nat
  handler : Store → Nat → List GoStr → Store × GoStr

/-- Map lookup over the registry association list. -/
def lookupEntry : List (GoStr × CmdEntry) → GoStr → Option CmdEntry
  | [], _ => none
  | (name, e) :: rest, key => if name = key then some e else lookupEntry rest key

/-- The command registry. -/
def registry : List (GoStr × CmdEntry) :=
  [(bytesOf ("SET"), ⟨2, 4, setCommand⟩),
   (bytesOf ("GET"), ⟨1, 1, getCommand⟩),
   (bytesOf ("PING"), ⟨0, 0, pingCommand⟩),
   (bytesOf ("ECHO"), ⟨1, 1, echoCommand⟩),
   (bytesOf ("CONFIG"), ⟨2, 2, configCommand⟩),
   (bytesOf ("KEYS"), ⟨1, 1, keysCommand⟩)]

/-- Error reply for an unregistered command name (the name is echoed as
given, not upper-cased; byte 39 is the ASCII apostrophe). -/
def unknownCmdReply (command : GoStr) : GoStr :=
  bytesOf ("-ERR unknown command ") ++ [39] ++ command ++ [39] ++ crlf

/-- Error reply for an argument count outside the registered arity bounds
(the name is upper-cased here). -/
def arityErrReply (command : GoStr) : GoStr :=
  bytesOf ("-ERR wrong number of arguments for ") ++ [39] ++ goToUpper command
    ++ [39] ++ bytesOf (" command\r\n")

/-- handleCommand generalized over the registry it consults. -/
def dispatch (reg : List (GoStr × CmdEntry)) (st : Store) (now : Nat)
    (command : GoStr) (args : List GoStr) : Store × GoStr :=
  match lookupEntry reg (goToUpper command) with
  | none => (st, unknownCmdReply command)
  | some e =>
    if args.length < e.minArgs ∨ e.maxArgs < args.length then (st, arityErrReply command)
    else e.handler st now args

/-- handleCommand: dispatch against the program registry. -/
def handleCommand (st : Store) (now : Nat) (command : GoStr) (args : List GoStr) :
    Store × GoStr :=
  dispatch registry st now command args

/-- Scan to the first newline byte: collected prefix, whether a newline was
found, and the remainder after it. -/
def splitAtNl : List Nat → GoStr × Bool × List Nat
  | [] => ([], false, [])
  | b :: rest =>
    if b = 10 then ([], true, rest)
    else
      let p := splitAtNl rest
      (b :: p.1, p.2.1, p.2.2)

/-- Strip one trailing carriage-return byte, as bufio ReadLine does when
the line ended in a newline. -/
def dropTrailingCr (l : GoStr) : GoStr :=
  match l.reverse with
  | c :: rest => if c = 13 then rest.reverse else l
  | [] => l

/-- bufio Reader.ReadLine: none at end of stream; otherwise the next line
without its terminator (the carriage return is stripped only when a
newline terminated the line) and the remaining bytes. -/
def readLine (input : List Nat) : Option (GoStr × List Nat) :=
  if input = [] then none
  else
    let p := splitAtNl input
    if p.2.1 then some (dropTrailingCr p.1, p.2.2) else some (p.1, p.2.2)

/-- Errors of the RESP frame decoder: io.EOF, io.ErrUnexpectedEOF from a
short ReadFull, or a protocol format error. -/
inductive RespErr where
  | eof
  | unexpectedEof
  | protocol (msg : String)
  deriving DecidableEq

/-- The per-element loop of parseRESPCommand: reads n bulk strings,
returning the payloads and the remaining bytes. -/
def parseItems : Nat → List Nat → Except RespErr (List GoStr) × List Nat
  | 0, input => (Except.ok [], input)
  | n + 1, input =>
    match readLine input with
    | none => (Except.error RespErr.eof, input)
    | some (bulkHeader, r1) =>
      if bulkHeader.headD 0 ≠ 36 then
        (Except.error (RespErr.protocol "invalid bulk string header"), r1)
      else
        match parseRESPInteger (bulkHeader.drop 1) 0 with
        | none => (Except.error (RespErr.protocol "invalid bulk string length"), r1)
        | some strLength =>
          if r1.length < strLength then (Except.error RespErr.unexpectedEof, [])
          else
            match parseItems n ((r1.drop strLength).drop 2) with
            | (Except.error e, r2) => (Except.error e, r2)
            | (Except.ok items, r2) => (Except.ok (r1.take strLength :: items), r2)

/-- parseRESPCommand: decode one array-of-bulk-strings frame into the
upper-cased command name and the argument payloads, also returning the
unconsumed bytes. -/
def parseRESPCommand (input : List Nat) :
    Except RespErr (GoStr × List GoStr) × List Nat :=
  match readLine input with
  | none => (Except.error RespErr.eof, input)
  | some (headerLine, r1) =>
    if headerLine.headD 0 ≠ 42 then
      (Except.error (RespErr.protocol "invalid RESP array header"), r1)
    else
      match parseRESPInteger (headerLine.drop 1) 1 with
      | none => (Except.error (RespErr.protocol "invalid array size"), r1)
      | some arraySize =>
        match parseItems arraySize r1 with
        | (Except.error e, r2) => (Except.error e, r2)
        | (Except.ok items, r2) =>
          match items with
          | [] => (Except.ok ([], []), r2)
          | c :: rest => (Except.ok (goToUpper c, rest), r2)

/-- The command loop of handleConnection: parse a frame; stop on io.EOF;
log and continue past any other parse error; otherwise dispatch and record
the reply.  Fuel bounds the iteration count; every iteration on a
non-empty input consumes at least one byte, so input length plus one is
always enough fuel. -/
def connLoop : Nat → Store → Nat → List Nat → Store × List GoStr
  | 0, st, _, _ => (st, [])
  | fuel + 1, st, now, input =>
    match parseRESPCommand input with
    | (Except.error e, rest) =>
      if e = RespErr.eof then (st, []) else connLoop fuel st now rest
    | (Except.ok (command, args), rest) =>
      let r := handleCommand st now command args
      let c := connLoop fuel r.1 now rest
      (c.1, r.2 :: c.2)

/-- handleConnection on a finite byte stream: the final store and the
sequence of replies written back, in order. -/
def handleConnection (st : Store) (now : Nat) (input : List Nat) :
    Store × List GoStr :=
  connLoop (input.length + 1) st now input

/-- A well-formed RESP request frame for the given element payloads: the
array header followed by each payload as a length-prefixed bulk string. -/
def encodeFrame (elems : List GoStr) : List Nat :=
  [42] ++ natDigits elems.length ++ crlf ++ elems.flatMap bulkEnc

/-- readByte over a byte list. -/
def readByteM (input : List Nat) : Except String (Nat × List Nat) :=
  match input with
  | [] => Except.error "EOF"
  | b :: rest => Except.ok (b, rest)

/-- readSizeEncoded: the length-prefixed integer decoder, selected by the
top two bits of the first byte; the four-byte form is big-endian. -/
def readSizeEncoded (input : List Nat) : Except String (Nat × List Nat) :=
  match readByteM input with
  | Except.error e => Except.error e
  | Except.ok (firstByte, r1) =>
    if firstByte / 64 = 0 then Except.ok (firstByte % 64, r1)
    else if firstByte / 64 = 1 then
      match readByteM r1 with
      | Except.error e => Except.error e
      | Except.ok (secondByte, r2) =>
        Except.ok ((firstByte % 64) * 256 + secondByte, r2)
    else if firstByte / 64 = 2 then
      match r1 with
      | b0 :: b1 :: b2 :: b3 :: r2 =>
        Except.ok (b0 * 16777216 + b1 * 65536 + b2 * 256 + b3, r2)
      | _ => Except.error "EOF"
    else Except.error "invalid size encoding"

/-- readStringEncoded: decodes the length with readSizeEncoded, then
switches on the top bits of the DECODED LENGTH value: 0, 1 or 2 reads that
many raw bytes; 3 is the special integer-as-string form (one byte, two or
four little-endian bytes rendered as decimal text); anything larger is an
error.  Note that a first byte whose own top two bits are 11 already makes
readSizeEncoded fail, so that case never reaches the switch. -/
def readStringEncoded (input : List Nat) : Except String (GoStr × List Nat) :=
  match readSizeEncoded input with
  | Except.error e => Except.error e
  | Except.ok (len, r1) =>
    if len / 64 = 0 ∨ len / 64 = 1 ∨ len / 64 = 2 then
      if r1.length < len then Except.error "EOF"
      else Except.ok (r1.take len, r1.drop len)
    else if len / 64 = 3 then
      if len % 64 = 0 then
        match readByteM r1 with
        | Except.error e => Except.error e
        | Except.ok (b, r2) => Except.ok (natDigits b, r2)
      else if len % 64 = 1 then
        match r1 with
        | b0 :: b1 :: r2 => Except.ok (natDigits (b0 + b1 * 256), r2)
        | _ => Except.error "EOF"
      else if len % 64 = 2 then
        match r1 with
        | b0 :: b1 :: b2 :: b3 :: r2 =>
          Except.ok (natDigits (b0 + b1 * 256 + b2 * 65536 + b3 * 16777216), r2)
        | _ => Except.error "EOF"
      else Except.error "unsuported string encoding"
    else Except.error "invalid string encoding"

/-- parseMetadata: decode and discard a name and a value string. -/
def parseMetadata (input : List Nat) : Except String (List Nat) :=
  match readStringEncoded input with
  | Except.error e => Except.error e
  | Except.ok (_, r1) =>
    match readStringEncoded r1 with
    | Except.error e => Except.error e
    | Except.ok (_, r2) => Except.ok r2

/-- The key-value loop of parseDatabase.  Each entry is an optional expiry
opcode (0xFD seconds, little-endian; 0xFC milliseconds, little-endian)
followed by a value-type byte, a key string and a value string; 0xFF ends
the section.  Entries are installed as PLAIN storedValue structs (not
pointers), skipping entries already expired at load time. -/
def kvLoop : Nat → List Nat → Nat → Store → Store × Option String
  | 0, _, _, st => (st, some "out of fuel")
  | fuel + 1, input, now, st =>
    match readByteM input with
    | Except.error _ => (st, some "failed to read entry type byte")
    | Except.ok (b, r1) =>
      if b = 255 then (st, none)
      else
        let step : Except String (Option Nat × Nat × List Nat) :=
          if b = 253 then
            match r1 with
            | e0 :: e1 :: e2 :: e3 :: r2 =>
              match readByteM r2 with
              | Except.error _ => Except.error "failed to read value type after expiration"
              | Except.ok (vt, r3) =>
                Except.ok (some ((e0 + e1 * 256 + e2 * 65536 + e3 * 16777216)
                  * 1000000000), vt, r3)
            | _ => Except.error "failed to read expiration time"
          else if b = 252 then
            match r1 with
            | e0 :: e1 :: e2 :: e3 :: e4 :: e5 :: e6 :: e7 :: r2 =>
              match readByteM r2 with
              | Except.error _ => Except.error "failed to read value type after expiration"
              | Except.ok (vt, r3) =>
                Except.ok (some ((e0 + e1 * 256 + e2 * 65536 + e3 * 16777216
                  + e4 * 4294967296 + e5 * 1099511627776 + e6 * 281474976710656
                  + e7 * 72057594037927936) * 1000000), vt, r3)
            | _ => Except.error "failed to read expiration time"
          else Except.ok (none, b, r1)
        match step with
        | Except.error e => (st, some e)
        | Except.ok (expOpt, valueType, r2) =>
          if valueType ≠ 0 then (st, some "unsupported value type")
          else
            match readStringEncoded r2 with
            | Except.error _ => (st, some "failed to read key")
            | Except.ok (key, r3) =>
              match readStringEncoded r3 with
              | Except.error _ => (st, some "failed to read value")
              | Except.ok (value, r4) =>
                let stNext :=
                  match expOpt with
                  | none => storeStore st key (StoredAny.plain ⟨value, expOpt⟩)
                  | some exp =>
                    if now < exp then storeStore st key (StoredAny.plain ⟨value, expOpt⟩)
                    else st
                kvLoop fuel r4 now stNext

/-- parseDatabase: the database index, an optional 0xC0 redis-bits pair, an
optional 0xFB marker (after which the code consumes one raw byte, reads one
size-encoded integer and seeks FORWARD that many bytes), then the key-value
section.  A byte that matches neither marker is pushed back by seeking
back one position, which here means resuming from the pre-read list. -/
def parseDatabase (input : List Nat) (now : Nat) (st : Store) : Store × Option String :=
  match readSizeEncoded input with
  | Except.error _ => (st, some "failed to read database selector")
  | Except.ok (_, r1) =>
    match readByteM r1 with
    | Except.error _ => (st, some "failed to read redis-bits metadata byte")
    | Except.ok (b, r2) =>
      let afterBits : Except String (List Nat) :=
        if b = 192 then
          match readByteM r2 with
          | Except.error _ => Except.error "failed to read redis-bits value byte"
          | Except.ok (_, r3) => Except.ok r3
        else Except.ok r1
      match afterBits with
      | Except.error e => (st, some e)
      | Except.ok s1 =>
        match readByteM s1 with
        | Except.error _ => (st, some "failed to read stream dictionary marker")
        | Except.ok (b2, r4) =>
          let afterDict : Except String (List Nat) :=
            if b2 = 251 then
              match readByteM r4 with
              | Except.error _ => Except.error "failed to read stream dictionary value byte"
              | Except.ok (_, r5) =>
                match readSizeEncoded r5 with
                | Except.error _ => Except.error "failed to read stream dictionary size"
                | Except.ok (size, r6) => Except.ok (r6.drop size)
            else Except.ok s1
          match afterDict with
          | Except.error e => (st, some e)
          | Except.ok s2 => kvLoop (s2.length + 1) s2 now st

/-- The opcode loop of loadRDBFile: metadata sections, then one database
section after which loading stops, or an explicit end marker; end of input
at an opcode boundary stops successfully. -/
def topLoop : Nat → List Nat → Nat → Store → Store × Option String
  | 0, _, _, st => (st, some "out of fuel")
  | fuel + 1, input, now, st =>
    match readByteM input with
    | Except.error _ => (st, none)
    | Except.ok (b, r1) =>
      if b = 250 then
        match parseMetadata r1 with
        | Except.error e => (st, some e)
        | Except.ok r2 => topLoop fuel r2 now st
      else if b = 254 then parseDatabase r1 now st
      else if b = 255 then (st, none)
      else (st, some "unexpected byte")

/-- loadRDBFile over the snapshot bytes: checks the magic header and runs
the opcode loop against an initially empty store, returning the store as
populated so far, possibly incomplete, and the error if any. -/
def loadRDBFile (input : List Nat) (now : Nat) : Store × Option String :=
  if input.length < 9 then ([], some "error reading header")
  else if input.take 9 ≠ bytesOf ("REDIS0011") then ([], some "invalid RDB header")
  else topLoop (input.length + 1) (input.drop 9) now []

/-- A syntactically well-formed wire reply: non-empty, starts with one of
the four reply type markers, and ends with CRLF. -/
def wireReply (r : GoStr) : Prop :=
  r ≠ [] ∧ (r.headD 0 = 43 ∨ r.headD 0 = 45 ∨ r.headD 0 = 36 ∨ r.headD 0 = 42)
    ∧ [13, 10] <:+ r

/-- Claim C1 (counter-evaluation for the code bug): a snapshot file with the
magic header, a database-select opcode, and one string entry foo to bar with
no expiry installs the entry as a PLAIN storedValue; the subsequent GET of
foo then fails the pointer type assertion, deletes the entry, and replies
with the null bulk string instead of the stored value claimed. -/
theorem c1_snapshot_then_get_returns_null :
    loadRDBFile (bytesOf ("REDIS0011") ++ [254, 0, 0, 3] ++ bytesOf ("foo")
        ++ [3] ++ bytesOf ("bar") ++ [255]) 0
      = ([(bytesOf ("foo"), StoredAny.plain ⟨bytesOf ("bar"), none⟩)], none)
    ∧ getCommand [(bytesOf ("foo"), StoredAny.plain ⟨bytesOf ("bar"), none⟩)] 0
        [bytesOf ("foo")] = ([], nullBulk)
    ∧ nullBulk ≠ bulkEnc (bytesOf ("bar")) :=
  ⟨rfl, rfl, by decide⟩

/-- Claim C4 (counter-evaluation for the code bug): after the database index,
on the bytes FB 01 02 followed by the key-value section 00 01 6B 01 76 FF
(one string entry k to v), the decoder consumes the raw byte 01, reads 02 as
a size, seeks forward two bytes into the key-value section, and then aborts
with an unsupported value type, installing nothing; the claimed behavior
(read two length-prefixed hints, then the entry) would have installed k. -/
theorem c4_resize_hint_mishandled :
    loadRDBFile (bytesOf ("REDIS0011") ++ [254, 0, 251, 1, 2, 0, 1, 107, 1, 118, 255]) 0
      = ([], some "unsupported value type") := rfl

/-- Claim C8 (counter-evaluation for the code bug): on a first byte with top
two bits 11 the string decoder does NOT return decimal text; readSizeEncoded
rejects the byte first, so readStringEncoded fails with the format error.
The decimal-text branch instead triggers when the DECODED LENGTH lands in
192..255, for example via the mode-01 bytes 40 C0. -/
theorem c8_special_string_encoding_unreachable :
    readStringEncoded [192, 7] = Except.error "invalid size encoding"
    ∧ readStringEncoded [64, 192, 7] = Except.ok (bytesOf ("7"), []) :=
  ⟨rfl, rfl⟩

/-- Claim C2 (counterexample): a store holding one key k whose deadline 5 has
already passed at enumeration time 10 still yields a KEYS * reply listing k,
so expired entries are not excluded as claimed. -/
theorem keys_includes_expired_key :
    keysCommand [(bytesOf ("k"), StoredAny.ptr ⟨bytesOf ("v"), some 5⟩)] 10 [bytesOf ("*")]
      = ([(bytesOf ("k"), StoredAny.ptr ⟨bytesOf ("v"), some 5⟩)], bytesOf ("*1\r\n$1\r\nk\r\n"))
    ∧ 5 < 10 :=
  ⟨rfl, by decide⟩

/-- Claim C5 (counterexample): a GET performed exactly at the deadline
instant (expiresAt equal to now, both 100) returns the stored value and
leaves the entry in place, not the null bulk string the claim requires for
expiresAt less than or equal to now. -/
theorem get_at_deadline_returns_value :
    getCommand [(bytesOf ("k"), StoredAny.ptr ⟨bytesOf ("v"), some 100⟩)] 100 [bytesOf ("k")]
      = ([(bytesOf ("k"), StoredAny.ptr ⟨bytesOf ("v"), some 100⟩)], bulkEnc (bytesOf ("v")))
    ∧ bulkEnc (bytesOf ("v")) ≠ nullBulk :=
  ⟨rfl, by decide⟩

/-- Claim C3 (counterexample): after a malformed array header produces a
protocol error, the connection loop still reads, dispatches and replies to
the next frame, so a protocol error does not terminate the loop as claimed. -/
theorem protocol_error_does_not_stop_loop :
    (parseRESPCommand (bytesOf ("x\r\n*1\r\n$4\r\nPING\r\n"))).1
      = Except.error (RespErr.protocol "invalid RESP array header")
    ∧ handleConnection [] 0 (bytesOf ("x\r\n*1\r\n$4\r\nPING\r\n"))
      = ([], [bytesOf ("+PONG\r\n")]) :=
  ⟨rfl, rfl⟩

/-- Every byte produced by natDigitsAux is a decimal digit byte. -/
theorem natDigitsAux_digits :
    ∀ fuel n d, d ∈ natDigitsAux fuel n → 48 ≤ d ∧ d ≤ 57 := by
  intro fuel
  induction fuel with
  | zero => intro n d h; simp [natDigitsAux] at h
  | succ f ih =>
    intro n d h
    by_cases hn : n < 10
    · simp [natDigitsAux, hn] at h
      omega
    · simp only [natDigitsAux, if_neg hn, List.mem_append, List.mem_singleton] at h
      rcases h with h | h
      · exact ih _ _ h
      · have : n % 10 < 10 := Nat.mod_lt _ (by omega)
        omega

/-- natDigitsAux never returns the empty list when it has fuel. -/
theorem natDigitsAux_ne_nil (fuel n : Nat) : natDigitsAux (fuel + 1) n ≠ [] := by
  by_cases hn : n < 10 <;> simp [natDigitsAux, hn]

/-- foldDigits distributes over append via Option.bind. -/
theorem foldDigits_append :
    ∀ (xs ys : List Nat) (a : Nat),
      foldDigits a (xs ++ ys) = (foldDigits a xs).bind (fun b => foldDigits b ys) := by
  intro xs
  induction xs with
  | nil => intro ys a; simp [foldDigits]
  | cons d ds ih =>
    intro ys a
    by_cases h : 48 ≤ d ∧ d ≤ 57 <;> simp [foldDigits, h, ih]

/-- Auxiliary arithmetic step for the decimal round trip. -/
theorem digits_arith (a L n : Nat) :
    (a * 10 ^ L + n / 10) * 10 + n % 10 = a * 10 ^ (L + 1) + n := by
  rw [pow_succ, Nat.add_mul, Nat.mul_assoc]
  generalize a * (10 ^ L * 10) = A
  omega

/-- Folding the digits of n starting from accumulator a yields
a shifted by the digit count, plus n. -/
theorem foldDigits_natDigitsAux :
    ∀ fuel n, n < fuel → ∀ a,
      foldDigits a (natDigitsAux fuel n)
        = some (a * 10 ^ (natDigitsAux fuel n).length + n) := by
  intro fuel
  induction fuel with
  | zero => intro n hn; omega
  | succ f ih =>
    intro n hn a
    by_cases h10 : n < 10
    · simp only [natDigitsAux, if_pos h10, foldDigits]
      rw [if_pos (by omega)]
      simp [foldDigits]
    · have hdiv : n / 10 < f := by
        have h1 : n / 10 < n := Nat.div_lt_self (by omega) (by omega)
        omega
      simp only [natDigitsAux, if_neg h10]
      rw [foldDigits_append, ih _ hdiv a]
      simp only [Option.bind]
      simp only [foldDigits]
      rw [if_pos (by omega)]
      simp only [List.length_append, List.length_cons, List.length_nil]
      have harith := digits_arith a (natDigitsAux f (n / 10)).length n
      have hsub : 48 + n % 10 - 48 = n % 10 := by omega
      rw [hsub]
      rw [Nat.zero_add]
      rw [harith]

/-- goAtoi recovers any natural number from its decimal digit bytes. -/
theorem goAtoi_natDigits (n : Nat) : goAtoi (natDigits n) = some (n : Int) := by
  have hne := natDigitsAux_ne_nil n n
  have hfold := foldDigits_natDigitsAux (n + 1) n (by omega) 0
  cases hds : natDigitsAux (n + 1) n with
  | nil => exact absurd hds hne
  | cons c ds =>
    have hc : 48 ≤ c ∧ c ≤ 57 :=
      natDigitsAux_digits (n + 1) n c (by rw [hds]; exact List.mem_cons_self c ds)
    rw [hds] at hfold
    simp only [one_mul, zero_mul, Nat.zero_add] at hfold
    unfold natDigits
    rw [hds]
    simp only [goAtoi]
    rw [if_neg (by omega), if_neg (by omega)]
    simp [digitsNum, hfold]

/-- parseRESPInteger on the decimal rendering of n is n when the lower
bound allows it. -/
theorem parseRESPInteger_natDigits (n : Nat) (lo : Int) :
    parseRESPInteger (natDigits n) lo = if (n : Int) < lo then none else some n := by
  unfold parseRESPInteger
  rw [goAtoi_natDigits]
  by_cases h : (n : Int) < lo <;> simp [h]

/-- Taking the length of the left summand from an append returns it. -/
theorem takeLenAppend : ∀ (xs ys : List Nat), (xs ++ ys).take xs.length = xs := by
  intro xs ys
  induction xs with
  | nil => rfl
  | cons x xs ih => simp [ih]

/-- Dropping the length of the left summand from an append removes it. -/
theorem dropLenAppend : ∀ (xs ys : List Nat), (xs ++ ys).drop xs.length = ys := by
  intro xs ys
  induction xs with
  | nil => rfl
  | cons x xs ih => simp [ih]

/-- splitAtNl on a newline-free prefix followed by CRLF splits at the
newline, leaving the carriage return on the collected prefix. -/
theorem splitAtNl_encode :
    ∀ (xs rest : List Nat), (∀ b ∈ xs, b ≠ 10) →
      splitAtNl (xs ++ 13 :: 10 :: rest) = (xs ++ [13], true, rest) := by
  intro xs
  induction xs with
  | nil => intro rest _; rfl
  | cons x xs ih =>
    intro rest h
    have hx : x ≠ 10 := h x (by simp)
    have ih2 := ih rest (fun b hb => h b (by simp [hb]))
    simp [splitAtNl, hx, List.append_eq, ih2]

/-- dropTrailingCr removes exactly one trailing carriage return. -/
theorem dropTrailingCr_concat (xs : List Nat) : dropTrailingCr (xs ++ [13]) = xs := by
  unfold dropTrailingCr
  rw [List.reverse_append]
  simp

/-- ReadLine on a newline-free line followed by CRLF returns the line and
the bytes after the terminator. -/
theorem readLine_encode (xs rest : List Nat) (h : ∀ b ∈ xs, b ≠ 10) :
    readLine (xs ++ 13 :: 10 :: rest) = some (xs, rest) := by
  have hne : xs ++ 13 :: 10 :: rest ≠ [] := by cases xs <;> simp
  unfold readLine
  rw [if_neg hne]
  simp only [splitAtNl_encode xs rest h]
  simp [dropTrailingCr_concat]

/-- parseItems recovers exactly the payloads emitted by the bulk-string
encoder, consuming nothing past them. -/
theorem parseItems_encode :
    ∀ (elems : List GoStr) (rest : List Nat),
      parseItems elems.length (elems.flatMap bulkEnc ++ rest) = (Except.ok elems, rest) := by
  intro elems
  induction elems with
  | nil => intro rest; simp [parseItems]
  | cons p ps ih =>
    intro rest
    have hnot10 : ∀ b ∈ (36 :: natDigits p.length), b ≠ 10 := by
      intro b hb
      rcases List.mem_cons.mp hb with h | h
      · omega
      · have := natDigitsAux_digits (p.length + 1) p.length b h
        omega
    have hshape : (p :: ps).flatMap bulkEnc ++ rest
        = (36 :: natDigits p.length)
          ++ 13 :: 10 :: (p ++ 13 :: 10 :: (ps.flatMap bulkEnc ++ rest)) := by
      simp [bulkEnc, crlf]
    rw [List.length_cons, hshape]
    simp only [parseItems]
    rw [readLine_encode _ _ hnot10]
    simp only [List.headD_cons]
    rw [if_neg (by omega)]
    simp only [List.drop_succ_cons, List.drop_zero]
    rw [parseRESPInteger_natDigits]
    rw [if_neg (by omega)]
    dsimp only
    rw [if_neg (by simp [List.length_append])]
    rw [takeLenAppend, dropLenAppend]
    simp only [List.drop_succ_cons, List.drop_zero]
    rw [ih rest]

/-- Decoding any encoded frame yields the upper-cased name of element zero
and the remaining payloads untouched, with no residual bytes. -/
theorem parse_encodeFrame (name : GoStr) (args : List GoStr) :
    parseRESPCommand (encodeFrame (name :: args))
      = (Except.ok (goToUpper name, args), []) := by
  have hnot10 : ∀ b ∈ (42 :: natDigits (name :: args).length), b ≠ 10 := by
    intro b hb
    rcases List.mem_cons.mp hb with h | h
    · omega
    · have := natDigitsAux_digits ((name :: args).length + 1) (name :: args).length b h
      omega
  have hshape : encodeFrame (name :: args)
      = (42 :: natDigits (name :: args).length)
        ++ 13 :: 10 :: ((name :: args).flatMap bulkEnc ++ []) := by
    simp [encodeFrame, crlf]
  rw [hshape]
  simp only [parseRESPCommand]
  rw [readLine_encode _ _ hnot10]
  simp only [List.headD_cons]
  rw [if_neg (by omega)]
  simp only [List.drop_succ_cons, List.drop_zero]
  rw [parseRESPInteger_natDigits]
  rw [if_neg (by simp [List.length_cons])]
  dsimp only
  rw [parseItems_encode (name :: args) []]

/-- splitAtNl: when a newline was found the remainder is strictly shorter
than the input; when no newline exists the remainder is empty. -/
theorem splitAtNl_rest :
    ∀ input : List Nat,
      ((splitAtNl input).2.1 = true → (splitAtNl input).2.2.length < input.length)
      ∧ ((splitAtNl input).2.1 = false → (splitAtNl input).2.2 = []) := by
  intro input
  induction input with
  | nil => simp [splitAtNl]
  | cons b rest ih =>
    by_cases hb : b = 10
    · simp [splitAtNl, hb]
    · simp only [splitAtNl, if_neg hb]
      exact ⟨fun hf => Nat.lt_succ_of_lt (ih.1 hf), fun hf => ih.2 hf⟩

/-- A successful ReadLine consumes at least one byte. -/
theorem readLine_rest_lt (input : List Nat) (l : GoStr) (r : List Nat)
    (h : readLine input = some (l, r)) : r.length < input.length := by
  by_cases hne : input = []
  · rw [hne] at h
    simp [readLine] at h
  · unfold readLine at h
    rw [if_neg hne] at h
    by_cases hf : (splitAtNl input).2.1 = true
    · rw [if_pos hf] at h
      simp only [Option.some.injEq, Prod.mk.injEq] at h
      rw [← h.2]
      exact (splitAtNl_rest input).1 hf
    · rw [if_neg hf] at h
      simp only [Option.some.injEq, Prod.mk.injEq] at h
      rw [← h.2, (splitAtNl_rest input).2 (by simpa using hf)]
      simpa using List.length_pos.mpr hne

/-- parseItems never produces a remainder longer than its input. -/
theorem parseItems_rest_le :
    ∀ (n : Nat) (input : List Nat), (parseItems n input).2.length ≤ input.length := by
  intro n
  induction n with
  | zero => intro input; simp [parseItems]
  | succ m ih =>
    intro input
    simp only [parseItems]
    cases hr : readLine input with
    | none => simp
    | some pr =>
      obtain ⟨l, r1⟩ := pr
      have hlt := readLine_rest_lt input l r1 hr
      dsimp only
      by_cases hh : l.headD 0 ≠ 36
      · rw [if_pos hh]
        dsimp only
        omega
      · rw [if_neg hh]
        cases hp : parseRESPInteger (l.drop 1) 0 with
        | none => dsimp only; omega
        | some len =>
          dsimp only
          by_cases hlen : r1.length < len
          · rw [if_pos hlen]
            simp
          · rw [if_neg hlen]
            rcases hq : parseItems m ((r1.drop len).drop 2) with ⟨res, r2⟩
            have h2 : r2.length ≤ ((r1.drop len).drop 2).length := by
              have h3 := ih ((r1.drop len).drop 2)
              rw [hq] at h3
              exact h3
            have h3 : ((r1.drop len).drop 2).length ≤ r1.length := by
              simp [List.length_drop]
            cases res with
            | error e => dsimp only; omega
            | ok items => dsimp only; omega

/-- On a non-empty input, one parse attempt consumes at least one byte,
whether it fails or succeeds. -/
theorem parseRESPCommand_consumes (input : List Nat) (hne : input ≠ []) :
    (parseRESPCommand input).2.length < input.length := by
  simp only [parseRESPCommand]
  cases hr : readLine input with
  | none =>
    exfalso
    unfold readLine at hr
    rw [if_neg hne] at hr
    by_cases hf : (splitAtNl input).2.1 = true
    · rw [if_pos hf] at hr
      exact Option.noConfusion hr
    · rw [if_neg hf] at hr
      exact Option.noConfusion hr
  | some pr =>
    obtain ⟨l, r1⟩ := pr
    have hlt := readLine_rest_lt input l r1 hr
    dsimp only
    by_cases hh : l.headD 0 ≠ 42
    · rw [if_pos hh]
      dsimp only
      omega
    · rw [if_neg hh]
      cases hp : parseRESPInteger (l.drop 1) 1 with
      | none => dsimp only; omega
      | some n =>
        dsimp only
        rcases hq : parseItems n r1 with ⟨res, r2⟩
        have h2 : r2.length ≤ r1.length := by
          have h3 := parseItems_rest_le n r1
          rw [hq] at h3
          exact h3
        cases res with
        | error e => dsimp only; omega
        | ok items => cases items <;> dsimp only <;> omega

/-- connLoop does not depend on the exact fuel value once the fuel exceeds
the input length. -/
theorem connLoop_fuel :
    ∀ (f g : Nat) (st : Store) (now : Nat) (input : List Nat),
      input.length < f → input.length < g →
      connLoop f st now input = connLoop g st now input := by
  intro f
  induction f with
  | zero => intro g st now input hf hg; omega
  | succ f ih =>
    intro g st now input hf hg
    cases g with
    | zero => omega
    | succ g =>
      simp only [connLoop]
      rcases hp : parseRESPCommand input with ⟨res, rest⟩
      cases res with
      | error e =>
        dsimp only
        by_cases he : e = RespErr.eof
        · rw [if_pos he, if_pos he]
        · have hne : input ≠ [] := by
            intro hin
            subst hin
            have h1 : (parseRESPCommand ([] : List Nat)).1 = Except.error e := by rw [hp]
            have h2 : (parseRESPCommand ([] : List Nat)).1 = Except.error RespErr.eof := rfl
            rw [h2] at h1
            injection h1 with h3
            exact he h3.symm
          have hcons := parseRESPCommand_consumes input hne
          rw [hp] at hcons
          dsimp only at hcons
          rw [if_neg he, if_neg he]
          exact ih g st now rest (by omega) (by omega)
      | ok pr =>
        have hne : input ≠ [] := by
          intro hin
          subst hin
          have h1 : (parseRESPCommand ([] : List Nat)).1 = Except.ok pr := by rw [hp]
          have h2 : (parseRESPCommand ([] : List Nat)).1 = Except.error RespErr.eof := rfl
          rw [h2] at h1
          exact Except.noConfusion h1
        have hcons := parseRESPCommand_consumes input hne
        rw [hp] at hcons
        dsimp only at hcons
        obtain ⟨c, args⟩ := pr
        dsimp only
        rw [ih g (handleCommand st now c args).1 now rest (by omega) (by omega)]

/-- Claim C6: dispatch of an unregistered command name returns the
unknown-command error reply and leaves the store untouched; dispatch of a
registered name with an argument count outside the arity bounds returns
the arity error reply for EVERY entry with those bounds, whatever its
handler, so the handler is never invoked; within the bounds the handler
reply is returned verbatim. -/
theorem dispatch_arity_and_unknown
    (reg : List (GoStr × CmdEntry)) (st : Store) (now : Nat)
    (command : GoStr) (args : List GoStr) :
    (lookupEntry reg (goToUpper command) = none →
      dispatch reg st now command args = (st, unknownCmdReply command))
    ∧ (∀ e, lookupEntry reg (goToUpper command) = some e →
        args.length < e.minArgs ∨ e.maxArgs < args.length →
        dispatch reg st now command args = (st, arityErrReply command))
    ∧ (∀ e, lookupEntry reg (goToUpper command) = some e →
        e.minArgs ≤ args.length → args.length ≤ e.maxArgs →
        dispatch reg st now command args = e.handler st now args) := by
  refine ⟨fun h => ?_, fun e h hb => ?_, fun e h h1 h2 => ?_⟩
  · unfold dispatch
    rw [h]
  · unfold dispatch
    rw [h]
    dsimp only
    rw [if_pos hb]
  · unfold dispatch
    rw [h]
    dsimp only
    rw [if_neg (by push_neg; omega)]

/-- Witness for claim C6: an unregistered name yields the unknown-command
reply, GET with no arguments yields the arity reply without running the
GET handler, and PING within bounds returns its handler reply verbatim. -/
theorem dispatch_arity_and_unknown_witness :
    dispatch registry [] 0 (bytesOf ("BOGUS")) [] = ([], unknownCmdReply (bytesOf ("BOGUS")))
    ∧ dispatch registry [] 0 (bytesOf ("get")) [] = ([], arityErrReply (bytesOf ("get")))
    ∧ dispatch registry [] 0 (bytesOf ("PING")) [] = pingCommand [] 0 [] :=
  ⟨(dispatch_arity_and_unknown registry [] 0 (bytesOf ("BOGUS")) []).1 rfl,
   (dispatch_arity_and_unknown registry [] 0 (bytesOf ("get")) []).2.1
     ⟨1, 1, getCommand⟩ rfl (by decide),
   (dispatch_arity_and_unknown registry [] 0 (bytesOf ("PING")) []).2.2
     ⟨0, 0, pingCommand⟩ rfl (by decide) (by decide)⟩

/-- Claim C5 (amended): for a pointer entry with a set deadline, GET treats
the entry as absent only when now is STRICTLY after expiresAt, deleting it
and answering the null bulk string; at now equal to expiresAt, and before
it, the stored value is returned and the store is untouched. -/
theorem getCommand_expiry_semantics
    (st : Store) (now : Nat) (k v : GoStr) (exp : Nat)
    (h : storeLoad st k = some (StoredAny.ptr ⟨v, some exp⟩)) :
    getCommand st now [k]
      = if exp < now then (storeDelete st k, nullBulk) else (st, bulkEnc v) := by
  unfold getCommand
  rw [if_neg (by simp)]
  simp only [List.getD_cons_zero]
  rw [h]

/-- Witness for the amended claim C5: with deadline 5 already passed at
time 10, GET deletes the single entry and answers the null bulk string. -/
theorem getCommand_expiry_semantics_witness :
    getCommand [(bytesOf ("k"), StoredAny.ptr ⟨bytesOf ("v"), some 5⟩)] 10 [bytesOf ("k")]
      = ([], nullBulk) := by
  rw [getCommand_expiry_semantics [(bytesOf ("k"), StoredAny.ptr ⟨bytesOf ("v"), some 5⟩)]
    10 (bytesOf ("k")) (bytesOf ("v")) 5 rfl]
  rfl

/-- Claim C9: a map entry whose stored value is not a pointer (such as the
plain structs installed by the snapshot loader) is deleted by GET, which
answers the null bulk string; and a single-argument GET never produces an
error reply: its reply always begins with the bulk-string marker. -/
theorem getCommand_plain_entry_and_no_error
    (st : Store) (now : Nat) (k : GoStr) (sv : storedValue) (args : List GoStr) :
    (storeLoad st k = some (StoredAny.plain sv) →
      getCommand st now [k] = (storeDelete st k, nullBulk))
    ∧ (args.length = 1 → ((getCommand st now args).2).headD 0 = 36) := by
  constructor
  · intro h
    unfold getCommand
    rw [if_neg (by simp)]
    simp only [List.getD_cons_zero]
    rw [h]
  · intro h1
    unfold getCommand
    rw [if_neg (by omega)]
    dsimp only
    cases hL : storeLoad st (args.getD 0 []) with
    | none => rfl
    | some e =>
      cases e with
      | plain sv2 => rfl
      | ptr sv2 =>
        dsimp only
        cases hE : sv2.expiresAt with
        | none => rfl
        | some exp =>
          dsimp only
          by_cases hlt : exp < now
          · rw [if_pos hlt]
            rfl
          · rw [if_neg hlt]
            rfl

/-- Witness for claim C9: GET on a store holding one plain (loader-style)
entry deletes it and answers the null bulk string, whose first byte is the
bulk-string marker. -/
theorem getCommand_plain_entry_witness :
    getCommand [(bytesOf ("k"), StoredAny.plain ⟨bytesOf ("v"), none⟩)] 0 [bytesOf ("k")]
      = ([], nullBulk)
    ∧ ((getCommand [(bytesOf ("k"), StoredAny.plain ⟨bytesOf ("v"), none⟩)] 0
        [bytesOf ("k")]).2).headD 0 = 36 := by
  have h := getCommand_plain_entry_and_no_error
    [(bytesOf ("k"), StoredAny.plain ⟨bytesOf ("v"), none⟩)] 0 (bytesOf ("k"))
    ⟨bytesOf ("v"), none⟩ [bytesOf ("k")]
  exact ⟨(h.1 rfl).trans (by rfl), h.2 rfl⟩

/-- Folding bulk encodings onto an accumulator equals the accumulator
followed by the concatenated encodings. -/
theorem foldl_bulkEnc :
    ∀ (ks : List GoStr) (acc : GoStr),
      ks.foldl (fun resp k => resp ++ bulkEnc k) acc = acc ++ ks.flatMap bulkEnc := by
  intro ks
  induction ks with
  | nil => intro acc; simp
  | cons k ks ih => intro acc; simp [ih, List.append_assoc]

/-- Claim C2 (amended): KEYS with pattern * replies with the array of ALL
keys currently present in the store, with no expiry filtering: entries
whose deadline has already passed but were not yet lazily deleted are
still listed. -/
theorem keysCommand_lists_all_keys (st : Store) (now : Nat) :
    keysCommand st now [bytesOf ("*")]
      = (st, [42] ++ natDigits (storeKeys st).length ++ crlf
          ++ (storeKeys st).flatMap bulkEnc) := by
  unfold keysCommand
  rw [if_neg (by simp)]
  dsimp only
  rw [foldl_bulkEnc]

/-- A CRLF suffix of the right summand survives prepending. -/
theorem suffix_append_left (A B : GoStr) (h : [13, 10] <:+ B) : [13, 10] <:+ A ++ B := by
  obtain ⟨t, ht⟩ := h
  exact ⟨A ++ t, by rw [List.append_assoc, ht]⟩

/-- A reply is wire-well-formed once its head byte is a marker and it ends
with CRLF (a marker head already rules out emptiness). -/
theorem wireReply_mk (r : GoStr)
    (h1 : r.headD 0 = 43 ∨ r.headD 0 = 45 ∨ r.headD 0 = 36 ∨ r.headD 0 = 42)
    (h2 : [13, 10] <:+ r) : wireReply r := by
  refine ⟨?_, h1, h2⟩
  intro hr
  subst hr
  simp [List.headD] at h1

/-- Every bulk-string encoding ends with CRLF. -/
theorem bulkEnc_crlf (s : GoStr) : [13, 10] <:+ bulkEnc s := by
  unfold bulkEnc
  repeat apply suffix_append_left
  decide

/-- Every bulk-string encoding is a well-formed wire reply. -/
theorem wireReply_bulkEnc (s : GoStr) : wireReply (bulkEnc s) :=
  wireReply_mk _ (Or.inr (Or.inr (Or.inl rfl))) (bulkEnc_crlf s)

/-- Appending any run of bulk encodings preserves a CRLF suffix. -/
theorem suffix_flatMap :
    ∀ (ks : List GoStr) (X : GoStr),
      [13, 10] <:+ X → [13, 10] <:+ X ++ ks.flatMap bulkEnc := by
  intro ks
  induction ks with
  | nil => intro X h; simpa using h
  | cons k ks ih =>
    intro X h
    rw [List.flatMap_cons, ← List.append_assoc]
    exact ih (X ++ bulkEnc k) (suffix_append_left _ _ (bulkEnc_crlf k))

/-- pingCommand always answers a well-formed wire reply. -/
theorem wireReply_ping (st : Store) (now : Nat) (args : List GoStr) :
    wireReply (pingCommand st now args).2 := by
  unfold pingCommand
  dsimp only
  exact wireReply_mk _ (by decide) (by decide)

/-- echoCommand always answers a well-formed wire reply. -/
theorem wireReply_echo (st : Store) (now : Nat) (args : List GoStr) :
    wireReply (echoCommand st now args).2 := by
  unfold echoCommand
  by_cases h : args.length = 0
  · rw [if_pos h]
    dsimp only
    refine wireReply_mk _ (Or.inr (Or.inl rfl)) ?_
    repeat apply suffix_append_left
    decide
  · rw [if_neg h]
    dsimp only
    exact wireReply_bulkEnc _

/-- Every error reply produced by parseCommandExpiry is well formed. -/
theorem parseCommandExpiry_error (now : Nat) (args : List GoStr) (e : GoStr)
    (h : parseCommandExpiry now args = Except.error e) : wireReply e := by
  unfold parseCommandExpiry at h
  split at h
  · injection h with h2
    subst h2
    exact wireReply_mk _ (by decide) (by decide)
  · split at h
    · injection h with h2
      subst h2
      exact wireReply_mk _ (by decide) (by decide)
    · split at h
      · injection h with h2
        subst h2
        exact wireReply_mk _ (by decide) (by decide)
      · split at h
        · injection h with h2
          subst h2
          exact wireReply_mk _ (by decide) (by decide)
        · exact Except.noConfusion h

/-- setCommand always answers a well-formed wire reply. -/
theorem wireReply_set (st : Store) (now : Nat) (args : List GoStr) :
    wireReply (setCommand st now args).2 := by
  unfold setCommand
  by_cases h1 : args.length ≠ 2 ∧ args.length ≠ 4
  · rw [if_pos h1]
    dsimp only
    refine wireReply_mk _ (Or.inr (Or.inl rfl)) ?_
    repeat apply suffix_append_left
    decide
  · rw [if_neg h1]
    by_cases h2 : args.length = 4
    · rw [if_pos h2]
      cases hP : parseCommandExpiry now args with
      | error e =>
        dsimp only
        exact parseCommandExpiry_error now args e hP
      | ok exp =>
        dsimp only
        exact wireReply_mk _ (by decide) (by decide)
    · rw [if_neg h2]
      dsimp only
      exact wireReply_mk _ (by decide) (by decide)

/-- getCommand always answers a well-formed wire reply. -/
theorem wireReply_get (st : Store) (now : Nat) (args : List GoStr) :
    wireReply (getCommand st now args).2 := by
  unfold getCommand
  by_cases h : args.length ≠ 1
  · rw [if_pos h]
    dsimp only
    refine wireReply_mk _ (Or.inr (Or.inl rfl)) ?_
    repeat apply suffix_append_left
    decide
  · rw [if_neg h]
    dsimp only
    cases storeLoad st (args.getD 0 []) with
    | none =>
      dsimp only
      exact wireReply_mk _ (by decide) (by decide)
    | some e =>
      cases e with
      | plain sv =>
        dsimp only
        exact wireReply_mk _ (by decide) (by decide)
      | ptr sv =>
        dsimp only
        cases sv.expiresAt with
        | none =>
          dsimp only
          exact wireReply_bulkEnc _
        | some exp =>
          dsimp only
          by_cases hlt : exp < now
          · rw [if_pos hlt]
            dsimp only
            exact wireReply_mk _ (by decide) (by decide)
          · rw [if_neg hlt]
            dsimp only
            exact wireReply_bulkEnc _

/-- configCommand always answers a well-formed wire reply. -/
theorem wireReply_config (st : Store) (now : Nat) (args : List GoStr) :
    wireReply (configCommand st now args).2 := by
  unfold configCommand
  dsimp only
  by_cases h1 : goToUpper (args.getD 0 []) = bytesOf ("GET")
  · rw [if_pos h1]
    by_cases h2 : goToLower (args.getD 1 []) = bytesOf ("dir")
    · rw [if_pos h2]
      dsimp only
      refine wireReply_mk _ (Or.inr (Or.inr (Or.inr rfl))) ?_
      apply suffix_append_left
      exact bulkEnc_crlf _
    · rw [if_neg h2]
      by_cases h3 : goToLower (args.getD 1 []) = bytesOf ("dbfilename")
      · rw [if_pos h3]
        dsimp only
        refine wireReply_mk _ (Or.inr (Or.inr (Or.inr rfl))) ?_
        apply suffix_append_left
        exact bulkEnc_crlf _
      · rw [if_neg h3]
        dsimp only
        exact wireReply_mk _ (by decide) (by decide)
  · rw [if_neg h1]
    dsimp only
    exact wireReply_mk _ (by decide) (by decide)

/-- keysCommand always answers a well-formed wire reply. -/
theorem wireReply_keys (st : Store) (now : Nat) (args : List GoStr) :
    wireReply (keysCommand st now args).2 := by
  unfold keysCommand
  by_cases h : args.getD 0 [] ≠ bytesOf ("*")
  · rw [if_pos h]
    dsimp only
    exact wireReply_mk _ (by decide) (by decide)
  · rw [if_neg h]
    dsimp only
    rw [foldl_bulkEnc]
    refine wireReply_mk _ (Or.inr (Or.inr (Or.inr rfl))) ?_
    apply suffix_flatMap
    repeat apply suffix_append_left
    decide

/-- Any entry found in a registry list is one of its rows. -/
theorem lookupEntry_mem :
    ∀ (reg : List (GoStr × CmdEntry)) (u : GoStr) (e : CmdEntry),
      lookupEntry reg u = some e → ∃ p ∈ reg, p.2 = e := by
  intro reg
  induction reg with
  | nil => intro u e h; exact Option.noConfusion h
  | cons p rest ih =>
    intro u e h
    obtain ⟨nm, en⟩ := p
    simp only [lookupEntry] at h
    by_cases hq : nm = u
    · rw [if_pos hq] at h
      injection h with h2
      exact ⟨(nm, en), by simp, h2⟩
    · rw [if_neg hq] at h
      obtain ⟨q, hq1, hq2⟩ := ih u e h
      exact ⟨q, by simp [hq1], hq2⟩

/-- Claim C10: for every command name and every argument list the
dispatcher is total and yields a non-empty reply that begins with one of
the wire markers plus, minus, dollar or star, and ends with CRLF. -/
theorem handleCommand_reply_wellformed
    (st : Store) (now : Nat) (command : GoStr) (args : List GoStr) :
    wireReply (handleCommand st now command args).2 := by
  unfold handleCommand dispatch
  cases hL : lookupEntry registry (goToUpper command) with
  | none =>
    dsimp only
    refine wireReply_mk _ (Or.inr (Or.inl rfl)) ?_
    unfold unknownCmdReply
    repeat apply suffix_append_left
    decide
  | some e =>
    dsimp only
    by_cases hb : args.length < e.minArgs ∨ e.maxArgs < args.length
    · rw [if_pos hb]
      dsimp only
      refine wireReply_mk _ (Or.inr (Or.inl rfl)) ?_
      unfold arityErrReply
      repeat apply suffix_append_left
      decide
    · rw [if_neg hb]
      obtain ⟨p, hp1, hp2⟩ := lookupEntry_mem registry (goToUpper command) e hL
      simp only [registry, List.mem_cons, List.not_mem_nil, or_false] at hp1
      rcases hp1 with hh | hh | hh | hh | hh | hh
      all_goals subst hh
      all_goals rw [← hp2]
      all_goals dsimp only
      · exact wireReply_set st now args
      · exact wireReply_get st now args
      · exact wireReply_ping st now args
      · exact wireReply_echo st now args
      · exact wireReply_config st now args
      · exact wireReply_keys st now args

/-- Claim C3 (amended): a decode failure other than end-of-stream does NOT
terminate the command loop; the handler logs it and continues, so the loop
on such an input behaves exactly as the loop restarted on the bytes left
over after the failed parse.  Only end-of-stream (or a write failure, not
modelled) ends the loop. -/
theorem handleConnection_skips_bad_frame
    (st : Store) (now : Nat) (input : List Nat) (e : RespErr) (rest : List Nat)
    (hp : parseRESPCommand input = (Except.error e, rest))
    (he : e ≠ RespErr.eof) :
    handleConnection st now input = handleConnection st now rest := by
  have hne : input ≠ [] := by
    intro hin
    subst hin
    have h1 : (parseRESPCommand ([] : List Nat)).1 = Except.error e := by rw [hp]
    have h2 : (parseRESPCommand ([] : List Nat)).1 = Except.error RespErr.eof := rfl
    rw [h2] at h1
    injection h1 with h3
    exact he h3.symm
  have hcons := parseRESPCommand_consumes input hne
  rw [hp] at hcons
  dsimp only at hcons
  unfold handleConnection
  have hstep : connLoop (input.length + 1) st now input = connLoop input.length st now rest := by
    simp only [connLoop]
    rw [hp]
    dsimp only
    rw [if_neg he]
  rw [hstep]
  exact connLoop_fuel input.length (rest.length + 1) st now rest (by omega) (by omega)

/-- Witness for the amended claim C3: a lone malformed header line is
skipped and the loop proceeds as if restarted on the empty remainder. -/
theorem handleConnection_skips_bad_frame_witness :
    handleConnection [] 0 (bytesOf ("x\r\n")) = handleConnection [] 0 [] :=
  handleConnection_skips_bad_frame [] 0 (bytesOf ("x\r\n"))
    (RespErr.protocol "invalid RESP array header") [] rfl (by decide)

/-- Claim C7: decoding a well-formed frame of N length-prefixed elements
yields the upper-cased payload of element zero as the command name and the
payloads of elements one onward, in order and byte-for-byte unmodified, as
the arguments; in particular the ECHO example frame decodes to command
ECHO with argument list hey. -/
theorem parseRESPCommand_decodes_frames :
    (∀ (name : GoStr) (args : List GoStr),
      parseRESPCommand (encodeFrame (name :: args))
        = (Except.ok (goToUpper name, args), []))
    ∧ parseRESPCommand (bytesOf ("*2\r\n$4\r\nECHO\r\n$3\r\nhey\r\n"))
      = (Except.ok (bytesOf ("ECHO"), [bytesOf ("hey")]), []) :=
  ⟨parse_encodeFrame, rfl⟩
